import Mathlib

/-!
# ESP32 air-quality monitor: AQI engine, sampling loop and query handler

Shallow embedding of `esp32/main/esp32_aqi_server.c`.

## Arithmetic model

The C type `float` is IEEE-754 binary32 with round-to-nearest, ties-to-even, every
operation rounded on its own (`FLT_EVAL_METHOD == 0`, no contraction).  A finite binary32
number is an integer multiple of `2^-149`, so a finite value is stored as the integer `n`
with value `n * 2^-149`.  The two zeros are identified: the sign of zero is not observable
through comparison, addition, multiplication or conversion to `int`, which is all the program
does with the numbers modelled here.

The C type `int` holds the AQI values; the program only compares and subtracts table
constants in `0..500`, so `Int` is used without wrap-around.
-/

namespace AqiServer

/-! ## Binary32 -/

/-- Floor of the base-2 logarithm, by halving (`fuel` bounds the number of halvings). -/
def ilog2Aux : Nat → Nat → Nat → Nat
  | 0, _, acc => acc
  | fuel + 1, n, acc => if n < 2 then acc else ilog2Aux fuel (n / 2) (acc + 1)

/-- Floor of the base-2 logarithm of `n` (and `0` for `n = 0`). -/
def ilog2 (n : Nat) : Nat := ilog2Aux n n 0

/-- Nearest integer to `a / d`, ties to the even integer. -/
def rne (a d : Nat) : Nat :=
  if 2 * (a % d) < d then a / d
  else if d < 2 * (a % d) then a / d + 1
  else if (a / d) % 2 = 0 then a / d else a / d + 1

/-- Spacing of the binary32 grid around `a / q`, in units of `2^-149`: 24 significant bits,
and never finer than one unit (the subnormal spacing). -/
def quantum (a q : Nat) : Nat := 2 ^ (ilog2 (a / q) - 23)

/-- Magnitude `a / q` (in units of `2^-149`) rounded to the binary32 grid with unbounded
exponent, ties to even. -/
def roundMag (a q : Nat) : Nat := quantum a q * rne a (q * quantum a q)

/-- IEEE-754 binary32 value: `fin n` is the finite number `n * 2^-149`, `inf neg` an infinity
(`neg = true` for the negative one), `nan` a NaN. -/
inductive F32 where
  | fin (n : Int)
  | inf (neg : Bool)
  | nan
  deriving DecidableEq

namespace F32

/-- The number one in units of `2^-149`. -/
def one : Nat := 2 ^ 149

/-- Largest finite binary32 magnitude, `(2^24 - 1) * 2^104`, in units of `2^-149`. -/
def maxMag : Nat := (2 ^ 24 - 1) * 2 ^ 253

/-- Binary32 value nearest to `(p / q) * 2^-149`; overflows to an infinity. -/
def round (p : Int) (q : Nat) : F32 :=
  if roundMag p.natAbs q ≤ maxMag then
    fin (if p < 0 then -(roundMag p.natAbs q : Int) else (roundMag p.natAbs q : Int))
  else inf (decide (p < 0))

/-- Decimal literal `p / q` written with an `f` suffix, e.g. `12.1f` is `lit 121 10`. -/
def lit (p : Int) (q : Nat) : F32 := round (p * (one : Int)) q

/-- Conversion `int -> float`. -/
def ofInt (i : Int) : F32 := round (i * (one : Int)) 1

/-- Unary minus. -/
def neg : F32 → F32
  | fin n => fin (-n)
  | inf s => inf (!s)
  | nan => nan

/-- Binary32 addition. -/
def add : F32 → F32 → F32
  | fin a, fin b => round (a + b) 1
  | fin _, inf s => inf s
  | inf s, fin _ => inf s
  | inf s, inf t => if s = t then inf s else nan
  | nan, _ => nan
  | _, nan => nan

/-- Binary32 subtraction. -/
def sub (x y : F32) : F32 := add x (neg y)

/-- Binary32 multiplication. -/
def mul : F32 → F32 → F32
  | fin a, fin b => round (a * b) one
  | fin a, inf s => if a = 0 then nan else inf (xor (decide (a < 0)) s)
  | inf s, fin b => if b = 0 then nan else inf (xor s (decide (b < 0)))
  | inf s, inf t => inf (xor s t)
  | nan, _ => nan
  | _, nan => nan

/-- Binary32 division (the zero divisor is taken as `+0`). -/
def div : F32 → F32 → F32
  | fin a, fin b =>
      if b = 0 then (if a = 0 then nan else inf (decide (a < 0)))
      else round (if b < 0 then -(a * (one : Int)) else a * (one : Int)) b.natAbs
  | fin _, inf _ => fin 0
  | inf s, fin b => inf (xor s (decide (b < 0)))
  | inf _, inf _ => nan
  | nan, _ => nan
  | _, nan => nan

/-- Comparison `x <= y`; false as soon as one side is a NaN. -/
def le : F32 → F32 → Bool
  | fin a, fin b => decide (a ≤ b)
  | fin _, inf s => !s
  | inf s, fin _ => s
  | inf s, inf t => s || !t
  | nan, _ => false
  | _, nan => false

/-- Comparison `x >= y`. -/
def ge (x y : F32) : Bool := le y x

/-- Conversion `float -> int`: the fractional part is discarded (truncation toward zero).
C leaves the conversion undefined for a NaN and for a value outside the range of `int`;
the model returns `0` for a NaN and the nearest `int` bound otherwise. -/
def toInt : F32 → Int
  | fin n =>
      if n < 0 then max (-(2 : Int) ^ 31) (-((-n) / (one : Int)))
      else min ((2 : Int) ^ 31 - 1) (n / (one : Int))
  | inf s => if s then -(2 : Int) ^ 31 else (2 : Int) ^ 31 - 1
  | nan => 0

/-- The value `0.5` in units of `2^-149`. -/
def half : Nat := 2 ^ 148

/-- Magnitude of a finite value in units of `2^-149` (and `0` otherwise). -/
def mag : F32 → Nat
  | fin n => n.natAbs
  | _ => 0

/-- The largest binary32 number below `0.5`, namely `0.5 - 2^-25`. -/
def pred_half : F32 := fin ((2 : Int) ^ 148 - (2 : Int) ^ 124)

/-- Nearest integer, halves away from zero (what C `lroundf` returns); a NaN and values
outside the range of `int` are treated as in `toInt`. -/
def round_half_away : F32 → Int
  | fin n =>
      if n < 0 then max (-(2 : Int) ^ 31) (-((-n + (half : Int)) / (one : Int)))
      else min ((2 : Int) ^ 31 - 1) ((n + (half : Int)) / (one : Int))
  | inf s => if s then -(2 : Int) ^ 31 else (2 : Int) ^ 31 - 1
  | nan => 0

end F32

/-! ## AQI calculation (lines 61-123) -/

/-- One row of a breakpoint table. -/
structure aqi_breakpoint_t where
  conc_lo : F32
  conc_hi : F32
  aqi_lo : Int
  aqi_hi : Int
  deriving DecidableEq

/-- A table row written with one-decimal literals: `bp 121 354 51 100` is
`{ 12.1f, 35.4f, 51, 100 }`. -/
def bp (lo10 hi10 : Int) (aqi_lo aqi_hi : Int) : aqi_breakpoint_t :=
  { conc_lo := F32.lit lo10 10, conc_hi := F32.lit hi10 10, aqi_lo := aqi_lo, aqi_hi := aqi_hi }

/-- EPA breakpoints for PM2.5. -/
def pm25_breakpoints : List aqi_breakpoint_t :=
  [ bp 0 120 0 50, bp 121 354 51 100, bp 355 554 101 150, bp 555 1504 151 200,
    bp 1505 2504 201 300, bp 2505 3504 301 400, bp 3505 5004 401 500 ]

/-- EPA breakpoints for PM10. -/
def pm10_breakpoints : List aqi_breakpoint_t :=
  [ bp 0 540 0 50, bp 550 1540 51 100, bp 1550 2540 101 150, bp 2550 3540 151 200,
    bp 3550 4240 201 300, bp 4250 5040 301 400, bp 5050 6040 401 500 ]

/-- EPA breakpoints for NO2, used for NOx. -/
def nox_breakpoints : List aqi_breakpoint_t :=
  [ bp 0 530 0 50, bp 540 1000 51 100, bp 1010 3600 101 150, bp 3610 6490 151 200,
    bp 6500 12490 201 300, bp 12500 16490 301 400, bp 16500 20490 401 500 ]

/-- The test of line 104: `conc >= bps[i].conc_lo && conc <= bps[i].conc_hi`. -/
def in_segment (conc : F32) (b : aqi_breakpoint_t) : Bool :=
  F32.ge conc b.conc_lo && F32.le conc b.conc_hi

/-- The quotient `(i_high - i_low) / (c_high - c_low)` of line 109. -/
def slope (b : aqi_breakpoint_t) : F32 :=
  F32.div (F32.ofInt (b.aqi_hi - b.aqi_lo)) (F32.sub b.conc_hi b.conc_lo)

/-- The `float aqi` of line 109:
`((i_high - i_low) / (c_high - c_low)) * (conc - c_low) + i_low`. -/
def interpolate (conc : F32) (b : aqi_breakpoint_t) : F32 :=
  F32.add (F32.mul (slope b) (F32.sub conc b.conc_lo)) (F32.ofInt b.aqi_lo)

/-- The result of line 110: `(int)(aqi + 0.5f)`. -/
def round_to_int (aqi : F32) : Int := F32.toInt (F32.add aqi (F32.lit 5 10))

/-- The loop of `calculate_aqi` over the rows `bps[0..len)`. -/
def calculate_aqi (conc : F32) : List aqi_breakpoint_t → Int
  | [] => 500
  | b :: rest =>
      if in_segment conc b then round_to_int (interpolate conc b)
      else calculate_aqi conc rest

/-- The category string of an AQI value. -/
def get_aqi_category (aqi : Int) : String :=
  if aqi ≤ 50 then "good"
  else if aqi ≤ 100 then "moderate"
  else if aqi ≤ 150 then "unhealthy_sensitive"
  else if aqi ≤ 200 then "unhealthy"
  else if aqi ≤ 300 then "very_unhealthy"
  else "hazardous"

/-- The three tables `sensor_task` passes to `calculate_aqi`. -/
def aqi_tables : List (List aqi_breakpoint_t) :=
  [pm25_breakpoints, pm10_breakpoints, nox_breakpoints]

/-! ## Shared sensor data (lines 43-59) -/

/-- The record `sensor_data_t`; `timestamp` is a `time_t` in seconds. -/
structure sensor_data_t where
  pm1_0 : F32
  pm2_5 : F32
  pm4_0 : F32
  pm10 : F32
  temperature : F32
  humidity : F32
  voc_index : F32
  nox_index : F32
  aqi : Int
  valid : Bool
  timestamp : Int
  deriving DecidableEq

/-- Initial value of `g_sensor_data`, the zero initialiser `{0}`. -/
def g_sensor_data : sensor_data_t :=
  { pm1_0 := F32.fin 0, pm2_5 := F32.fin 0, pm4_0 := F32.fin 0, pm10 := F32.fin 0,
    temperature := F32.fin 0, humidity := F32.fin 0, voc_index := F32.fin 0,
    nox_index := F32.fin 0, aqi := 0, valid := false, timestamp := 0 }

/-! ## Sampling loop (lines 304-375) -/

/-- Register values written by `sen5x_read_measured_values`: four `uint16_t` mass
concentrations and four `int16_t` values. -/
structure raw_values where
  pm1p0 : Nat
  pm2p5 : Nat
  pm4p0 : Nat
  pm10p0 : Nat
  hum : Int
  temp_raw : Int
  voc_idx : Int
  nox_idx : Int
  deriving DecidableEq

/-- The local `float` variables of lines 328-335. -/
structure converted where
  pm1 : F32
  pm2_5 : F32
  pm4 : F32
  pm10 : F32
  temp : F32
  rh : F32
  voc : F32
  nox : F32
  deriving DecidableEq

/-- Lines 328-335: each register is converted to `float` and divided by a `float` constant. -/
def convert (r : raw_values) : converted :=
  { pm1 := F32.div (F32.ofInt r.pm1p0) (F32.lit 10 1),
    pm2_5 := F32.div (F32.ofInt r.pm2p5) (F32.lit 10 1),
    pm4 := F32.div (F32.ofInt r.pm4p0) (F32.lit 10 1),
    pm10 := F32.div (F32.ofInt r.pm10p0) (F32.lit 10 1),
    temp := F32.div (F32.ofInt r.temp_raw) (F32.lit 200 1),
    rh := F32.div (F32.ofInt r.hum) (F32.lit 100 1),
    voc := F32.div (F32.ofInt r.voc_idx) (F32.lit 10 1),
    nox := F32.div (F32.ofInt r.nox_idx) (F32.lit 10 1) }

/-- Lines 344-346: `int aqi = aqi25; if (aqi10 > aqi) aqi = aqi10;
if (aqi_nox > aqi) aqi = aqi_nox;`. -/
def composite_aqi (aqi25 aqi10 aqi_nox : Int) : Int :=
  let aqi := aqi25
  let aqi := if aqi10 > aqi then aqi10 else aqi
  if aqi_nox > aqi then aqi_nox else aqi

/-- Lines 338-346: the three calls of `calculate_aqi` and the composite. -/
def compute_aqi (v : converted) : Int :=
  composite_aqi (calculate_aqi v.pm2_5 pm25_breakpoints)
    (calculate_aqi v.pm10 pm10_breakpoints)
    (calculate_aqi v.nox nox_breakpoints)

/-- What the environment answers during one iteration of the `while (1)` loop. -/
structure cycle_env where
  /-- Return value of `sen5x_read_data_ready`. -/
  ready_ret : Int
  /-- The flag written by `sen5x_read_data_ready`. -/
  ready : Bool
  /-- Return value of `sen5x_read_measured_values`. -/
  read_ret : Int
  /-- The registers written by `sen5x_read_measured_values`. -/
  raw : raw_values
  /-- Whether `xSemaphoreTake(g_sensor_mutex, 100 ms)` returned `pdTRUE`. -/
  lock : Bool
  /-- The value stored by `time(&g_sensor_data.timestamp)`. -/
  now : Int
  deriving DecidableEq

/-- Lines 353-363: the assignments made while the mutex is held. -/
def publish (v : converted) (aqi : Int) (now : Int) : sensor_data_t :=
  { pm1_0 := v.pm1, pm2_5 := v.pm2_5, pm4_0 := v.pm4, pm10 := v.pm10,
    temperature := v.temp, humidity := v.rh, voc_index := v.voc, nox_index := v.nox,
    aqi := aqi, valid := true, timestamp := now }

/-- One iteration of the loop of `sensor_task` (lines 318-371) as a function of the
environment and of the shared record. -/
def sensor_task_cycle (e : cycle_env) (g : sensor_data_t) : sensor_data_t :=
  if e.ready_ret ≠ 0 then g
  else if e.ready then
    if e.read_ret = 0 then
      if e.lock then publish (convert e.raw) (compute_aqi (convert e.raw)) e.now else g
    else g
  else g

/-! ## Query handler (lines 188-249) -/

/-- The arguments handed to `snprintf` for the success body, in the order of the format
string. -/
structure aqi_payload where
  device_id : String
  timestamp : Int
  pm1_0 : F32
  pm2_5 : F32
  pm4_0 : F32
  pm10 : F32
  voc_index : F32
  nox_index : F32
  temperature : F32
  humidity : F32
  aqi : Int
  aqi_category : String
  deriving DecidableEq

/-- What `httpd_resp_sendstr` is given: a fixed error text or the formatted payload. -/
inductive http_body where
  | text (s : String)
  | json (p : aqi_payload)
  deriving DecidableEq

/-- The response: status line (the server default is `200 OK`), content type, whether the
`Access-Control-Allow-Origin: *` header was set, and the body. -/
structure http_response where
  status : String
  content_type : String
  cors : Bool
  body : http_body
  deriving DecidableEq

/-- The macro `DEVICE_ID`. -/
def DEVICE_ID : String := "esp32-aqi-001"

/-- The handler `aqi_get_handler`: `lock` tells whether the mutex was obtained within 100 ms,
`now` is the value of `time(&now)` in the handler, `g` the shared record.  The result is the response and
the shared record after the call. -/
def aqi_get_handler (lock : Bool) (now : Int) (g : sensor_data_t) :
    http_response × sensor_data_t :=
  if lock then
    let data := g
    if !data.valid then
      ({ status := "503 Service Unavailable", content_type := "application/json",
         cors := false, body := http_body.text "\x7b\"error\":\"Sensor not ready\"\x7d" }, g)
    else
      let category := get_aqi_category data.aqi
      ({ status := "200 OK", content_type := "application/json", cors := true,
         body := http_body.json
           { device_id := DEVICE_ID, timestamp := now,
             pm1_0 := data.pm1_0, pm2_5 := data.pm2_5, pm4_0 := data.pm4_0, pm10 := data.pm10,
             voc_index := data.voc_index, nox_index := data.nox_index,
             temperature := data.temperature, humidity := data.humidity,
             aqi := data.aqi, aqi_category := category } }, g)
  else
    ({ status := "503 Service Unavailable", content_type := "application/json",
       cors := false, body := http_body.text "\x7b\"error\":\"Sensor data unavailable\"\x7d" }, g)

/-- Whether the characters `tok` stand at the start of `cs`. -/
def starts_with : List Char → List Char → Bool
  | [], _ => true
  | _ :: _, [] => false
  | a :: ts, c :: cs => a == c && starts_with ts cs

/-- Whether the characters `tok` occur somewhere in `cs`. -/
def occurs_in : List Char → List Char → Bool
  | tok, [] => starts_with tok []
  | tok, c :: cs => starts_with tok (c :: cs) || occurs_in tok cs

/-- Whether a response body carries the text `tok`: in the error text, or in one of the two
strings of the payload. -/
def body_mentions (tok : String) : http_body → Bool
  | http_body.text s => occurs_in tok.data s.data
  | http_body.json p =>
      occurs_in tok.data p.device_id.data || occurs_in tok.data p.aqi_category.data

/-! ## The index as the specification words it -/

/-- The index as the specification describes it: scan the table in order; for the first
segment with `conc_lo <= concentration <= conc_hi` interpolate linearly and round
half-away-from-zero; `500` when no segment matches. -/
def compute_index (concentration : F32) (table : List aqi_breakpoint_t) : Int :=
  match table.find? (fun b => F32.le b.conc_lo concentration && F32.le concentration b.conc_hi) with
  | some b => F32.round_half_away (interpolate concentration b)
  | none => 500

/-! ## Definitions used in the proofs -/

/-- Magnitude of `conc - c_low` for `conc = n`, `c_low = L`. -/
def diffMag (L n : Nat) : Nat := roundMag (n - L) 1

/-- Magnitude of `slope * (conc - c_low)`. -/
def prodMag (S L n : Nat) : Nat := roundMag (S * diffMag L n) F32.one

/-- Magnitude of the interpolated `aqi`. -/
def aqiMag (S L I n : Nat) : Nat := roundMag (prodMag S L n + I) 1

/-- Magnitude of `aqi + 0.5f`. -/
def sumMag (S L I n : Nat) : Nat := roundMag (aqiMag S L I n + F32.half) 1

/-- Magnitude of `k / 10.0f` for a non-negative register value `k`. -/
def convMag (k : Nat) : Nat := roundMag (roundMag (k * F32.one) 1 * F32.one) (10 * 2 ^ 149)

/-- Everything the interpolation needs to know about one table row; each conjunct is a closed
computation on the row. -/
def seg_ok (b : aqi_breakpoint_t) : Prop :=
  b.conc_lo = F32.fin (F32.mag b.conc_lo : Nat) ∧
  b.conc_hi = F32.fin (F32.mag b.conc_hi : Nat) ∧
  slope b = F32.fin (F32.mag (slope b) : Nat) ∧
  F32.ofInt b.aqi_lo = F32.fin (F32.mag (F32.ofInt b.aqi_lo) : Nat) ∧
  F32.mag b.conc_lo ≤ F32.mag b.conc_hi ∧
  diffMag (F32.mag b.conc_lo) (F32.mag b.conc_hi) ≤ F32.maxMag ∧
  prodMag (F32.mag (slope b)) (F32.mag b.conc_lo) (F32.mag b.conc_hi) ≤ F32.maxMag ∧
  aqiMag (F32.mag (slope b)) (F32.mag b.conc_lo) (F32.mag (F32.ofInt b.aqi_lo))
    (F32.mag b.conc_hi) ≤ F32.maxMag ∧
  sumMag (F32.mag (slope b)) (F32.mag b.conc_lo) (F32.mag (F32.ofInt b.aqi_lo))
    (F32.mag b.conc_hi) ≤ F32.maxMag ∧
  ((sumMag (F32.mag (slope b)) (F32.mag b.conc_lo) (F32.mag (F32.ofInt b.aqi_lo))
    (F32.mag b.conc_lo) / F32.one : Nat) : Int) = b.aqi_lo ∧
  ((sumMag (F32.mag (slope b)) (F32.mag b.conc_lo) (F32.mag (F32.ofInt b.aqi_lo))
    (F32.mag b.conc_hi) / F32.one : Nat) : Int) = b.aqi_hi ∧
  b.aqi_hi ≤ 500

instance (b : aqi_breakpoint_t) : Decidable (seg_ok b) := by
  unfold seg_ok; infer_instance

/-- Row `a` ends strictly below the start of row `b`. -/
def seg_before (a b : aqi_breakpoint_t) : Prop := F32.le b.conc_lo a.conc_hi = false

instance : DecidableRel seg_before := fun a b => by unfold seg_before; infer_instance

/-- A magnitude is on the binary32 grid: it is a multiple of the spacing of its binade. -/
def on_grid (a : Nat) : Prop := a % 2 ^ (ilog2 a - 23) = 0

instance (a : Nat) : Decidable (on_grid a) := by
  unfold on_grid; infer_instance

/-! ## Sample inputs -/

/-- A binary32 concentration just below `0.12`: `16106127 * 2^-27`. -/
def conc_below_012 : F32 := F32.fin (16106127 * 2 ^ 122)

/-- The registers of the end-to-end example: `pm2p5 = 350`, `pm10p0 = 540`, `nox_idx = 0`. -/
def example_env : cycle_env :=
  { ready_ret := 0, ready := true, read_ret := 0,
    raw := { pm1p0 := 0, pm2p5 := 350, pm4p0 := 0, pm10p0 := 540,
             hum := 0, temp_raw := 0, voc_idx := 0, nox_idx := 0 },
    lock := true, now := 1704067200 }

/-- Registers with `nox_idx = -1` (an index of `-0.1`) and everything else zero. -/
def negative_nox : raw_values :=
  { pm1p0 := 0, pm2p5 := 0, pm4p0 := 0, pm10p0 := 0,
    hum := 0, temp_raw := 0, voc_idx := 0, nox_idx := -1 }

/-- Registers with `pm10p0 = 545` (a PM10 concentration of `54.5`) and everything else
zero. -/
def gap_raw : raw_values :=
  { pm1p0 := 0, pm2p5 := 0, pm4p0 := 0, pm10p0 := 545,
    hum := 0, temp_raw := 0, voc_idx := 0, nox_idx := 0 }

/-- Registers with `pm2p5 = 121`, `pm10p0 = 545` and `nox_idx = -300`. -/
def mixed_raw : raw_values :=
  { pm1p0 := 0, pm2p5 := 121, pm4p0 := 0, pm10p0 := 545,
    hum := 0, temp_raw := 0, voc_idx := 0, nox_idx := -300 }

/-- A record as published by an earlier successful cycle. -/
def published_before : sensor_data_t :=
  { pm1_0 := F32.fin 0, pm2_5 := F32.fin 0, pm4_0 := F32.fin 0, pm10 := F32.fin 0,
    temperature := F32.fin 0, humidity := F32.fin 0, voc_index := F32.fin 0,
    nox_index := F32.fin 0, aqi := 42, valid := true, timestamp := 1704067200 }

/-! ## Rounding lemmas -/

theorem ilog2Aux_eq (fuel : Nat) : ∀ n acc, n ≤ fuel → ilog2Aux fuel n acc = acc + Nat.log2 n := by
  induction fuel with
  | zero =>
    intro n acc h
    have : n = 0 := by omega
    subst this
    simp [ilog2Aux, Nat.log2]
  | succ f ih =>
    intro n acc h
    unfold ilog2Aux
    by_cases h2 : n < 2
    · rw [if_pos h2, Nat.log2]
      have : ¬ (n ≥ 2) := by omega
      simp [this]
    · rw [if_neg h2, ih (n / 2) (acc + 1) (by omega)]
      conv_rhs => rw [Nat.log2]
      have : n ≥ 2 := by omega
      simp [this]
      omega

theorem ilog2_eq (n : Nat) : ilog2 n = Nat.log2 n := by
  simp [ilog2, ilog2Aux_eq n n 0 (le_refl n)]

theorem pow_ilog2_le {n : Nat} (h : n ≠ 0) : 2 ^ ilog2 n ≤ n := by
  rw [ilog2_eq]; exact Nat.log2_self_le h

theorem lt_pow_ilog2 (n : Nat) : n < 2 ^ (ilog2 n + 1) := by
  rw [ilog2_eq]; exact Nat.lt_log2_self

theorem ilog2_zero : ilog2 0 = 0 := by simp [ilog2, ilog2Aux]

theorem ilog2_mono {a b : Nat} (h : a ≤ b) : ilog2 a ≤ ilog2 b := by
  by_cases ha : a = 0
  · subst ha; simp [ilog2_zero]
  · have h1 := pow_ilog2_le ha
    have h2 := lt_pow_ilog2 b
    have : 2 ^ ilog2 a < 2 ^ (ilog2 b + 1) := by omega
    have := (Nat.pow_lt_pow_iff_right (by norm_num : 1 < 2)).1 this
    omega

theorem rne_mono {a b d : Nat} (h : a ≤ b) : rne a d ≤ rne b d := by
  have hk : a / d ≤ b / d := Nat.div_le_div_right h
  have h1 := Nat.div_add_mod a d
  have h2 := Nat.div_add_mod b d
  rcases Nat.lt_or_ge (a / d) (b / d) with hlt | hge
  · unfold rne; split_ifs <;> omega
  · have heq : a / d = b / d := by omega
    rw [heq] at h1
    have hr : a % d ≤ b % d := by omega
    unfold rne; rw [heq]; split_ifs <;> omega

theorem rne_mul {k d : Nat} (hd : 0 < d) : rne (k * d) d = k := by
  simp [rne, Nat.mul_mod_left, Nat.mul_div_cancel _ hd, hd]

theorem le_rne {k a d : Nat} (hd : 0 < d) (h : k * d ≤ a) : k ≤ rne a d := by
  have := rne_mono (d := d) h
  rwa [rne_mul hd] at this

theorem rne_le {k a d : Nat} (hd : 0 < d) (h : a ≤ k * d) : rne a d ≤ k := by
  have := rne_mono (d := d) h
  rwa [rne_mul hd] at this

theorem roundMag_mono {a b q : Nat} (hq : 0 < q) (h : a ≤ b) : roundMag a q ≤ roundMag b q := by
  have hdiv : a / q ≤ b / q := Nat.div_le_div_right h
  have hlog := ilog2_mono hdiv
  unfold roundMag quantum
  rcases Nat.lt_or_ge (ilog2 (a / q) - 23) (ilog2 (b / q) - 23) with hlt | hge
  · -- different binades
    set sa := ilog2 (a / q) - 23 with hsa
    set sb := ilog2 (b / q) - 23 with hsb
    have hb0 : b / q ≠ 0 := by
      intro h0
      rw [h0, ilog2_zero] at hsb
      omega
    have hbpow := pow_ilog2_le hb0
    have heb : ilog2 (b / q) = sb + 23 := by omega
    rw [heb] at hbpow
    have hb1 : 2 ^ (sb + 23) * q ≤ b := (Nat.le_div_iff_mul_le hq).1 hbpow
    have hb2 : 2 ^ 23 ≤ rne b (q * 2 ^ sb) := by
      apply le_rne (by positivity)
      calc 2 ^ 23 * (q * 2 ^ sb) = 2 ^ (sb + 23) * q := by ring
        _ ≤ b := hb1
    have hapow := lt_pow_ilog2 (a / q)
    have ha1 : a / q < 2 ^ (sa + 24) := by
      refine lt_of_lt_of_le hapow ?_
      apply Nat.pow_le_pow_right (by norm_num)
      omega
    have ha2 : a < 2 ^ (sa + 24) * q := (Nat.div_lt_iff_lt_mul hq).1 ha1
    have ha3 : rne a (q * 2 ^ sa) ≤ 2 ^ 24 := by
      apply rne_le (by positivity)
      calc a ≤ 2 ^ (sa + 24) * q := le_of_lt ha2
        _ = 2 ^ 24 * (q * 2 ^ sa) := by ring
    calc 2 ^ sa * rne a (q * 2 ^ sa) ≤ 2 ^ sa * 2 ^ 24 := Nat.mul_le_mul_left _ ha3
      _ = 2 ^ (sa + 24) := by ring
      _ ≤ 2 ^ (sb + 23) := Nat.pow_le_pow_right (by norm_num) (by omega)
      _ = 2 ^ sb * 2 ^ 23 := by ring
      _ ≤ 2 ^ sb * rne b (q * 2 ^ sb) := Nat.mul_le_mul_left _ hb2
  · have heq : ilog2 (a / q) - 23 = ilog2 (b / q) - 23 := by omega
    rw [heq]
    exact Nat.mul_le_mul_left _ (rne_mono h)

/-! ## Segment arithmetic on magnitudes -/

theorem round_natCast {a q : Nat} (h : roundMag a q ≤ F32.maxMag) :
    F32.round (a : Int) q = F32.fin (roundMag a q : Nat) := by
  have h0 : ¬ ((a : Int) < 0) := by omega
  simp [F32.round, h, h0]

set_option maxRecDepth 100000 in
theorem lit_half : F32.lit 5 10 = F32.fin (F32.half : Nat) := by decide

theorem diffMag_mono (L : Nat) {m n : Nat} (h : m ≤ n) : diffMag L m ≤ diffMag L n :=
  roundMag_mono Nat.one_pos (Nat.sub_le_sub_right h L)

theorem prodMag_mono (S L : Nat) {m n : Nat} (h : m ≤ n) : prodMag S L m ≤ prodMag S L n :=
  roundMag_mono (by decide) (Nat.mul_le_mul_left S (diffMag_mono L h))

theorem aqiMag_mono (S L I : Nat) {m n : Nat} (h : m ≤ n) : aqiMag S L I m ≤ aqiMag S L I n :=
  roundMag_mono Nat.one_pos (Nat.add_le_add_right (prodMag_mono S L h) I)

theorem sumMag_mono (S L I : Nat) {m n : Nat} (h : m ≤ n) : sumMag S L I m ≤ sumMag S L I n :=
  roundMag_mono Nat.one_pos (Nat.add_le_add_right (aqiMag_mono S L I h) F32.half)

set_option maxRecDepth 100000 in
theorem pm25_seg_ok : ∀ b ∈ pm25_breakpoints, seg_ok b := by decide

set_option maxRecDepth 100000 in
theorem pm10_seg_ok : ∀ b ∈ pm10_breakpoints, seg_ok b := by decide

set_option maxRecDepth 100000 in
theorem nox_seg_ok : ∀ b ∈ nox_breakpoints, seg_ok b := by decide

theorem in_segment_fin {c : F32} {b : aqi_breakpoint_t} (hb : seg_ok b)
    (h : in_segment c b = true) :
    ∃ n : Nat, c = F32.fin (n : Nat) ∧ F32.mag b.conc_lo ≤ n ∧ n ≤ F32.mag b.conc_hi := by
  obtain ⟨hlo, hhi, -⟩ := hb
  unfold in_segment F32.ge at h
  rw [hlo, hhi] at h
  cases c with
  | fin m =>
    simp only [F32.le, Bool.and_eq_true, decide_eq_true_eq] at h
    obtain ⟨h1, h2⟩ := h
    have hm : 0 ≤ m := le_trans (Int.ofNat_nonneg _) h1
    lift m to Nat using hm
    exact ⟨m, rfl, by exact_mod_cast h1, by exact_mod_cast h2⟩
  | inf s => cases s <;> simp [F32.le] at h
  | nan => simp [F32.le] at h

theorem interpolate_fin {b : aqi_breakpoint_t} (hb : seg_ok b) {n : Nat}
    (h1 : F32.mag b.conc_lo ≤ n) (h2 : n ≤ F32.mag b.conc_hi) :
    interpolate (F32.fin (n : Nat)) b =
      F32.fin (aqiMag (F32.mag (slope b)) (F32.mag b.conc_lo)
        (F32.mag (F32.ofInt b.aqi_lo)) n : Nat) := by
  obtain ⟨hlo, hhi, hs, hi, hle, hd, hp, ha, hr, -⟩ := hb
  unfold interpolate
  generalize F32.mag (slope b) = S at *
  generalize F32.mag (F32.ofInt b.aqi_lo) = I at *
  generalize F32.mag b.conc_lo = L at *
  generalize F32.mag b.conc_hi = H at *
  rw [hs, hi, hlo]
  have e1 : F32.sub (F32.fin (n : Nat)) (F32.fin (L : Nat)) = F32.fin (diffMag L n : Nat) := by
    have : ((n : Nat) : Int) + -((L : Nat) : Int) = ((n - L : Nat) : Int) := by omega
    simp only [F32.sub, F32.neg, F32.add]
    rw [this]
    exact round_natCast (le_trans (diffMag_mono L h2) hd)
  have e2 : F32.mul (F32.fin (S : Nat)) (F32.fin (diffMag L n : Nat)) =
      F32.fin (prodMag S L n : Nat) := by
    simp only [F32.mul]
    rw [← Nat.cast_mul]
    exact round_natCast (le_trans (prodMag_mono S L h2) hp)
  have e3 : F32.add (F32.fin (prodMag S L n : Nat)) (F32.fin (I : Nat)) =
      F32.fin (aqiMag S L I n : Nat) := by
    simp only [F32.add]
    rw [← Nat.cast_add]
    exact round_natCast (le_trans (aqiMag_mono S L I h2) ha)
  rw [e1, e2, e3]

theorem round_to_int_fin {S L I H n : Nat} (hr : sumMag S L I H ≤ F32.maxMag)
    (h500 : sumMag S L I H / F32.one ≤ 500) (h2 : n ≤ H) :
    round_to_int (F32.fin (aqiMag S L I n : Nat)) = ((sumMag S L I n / F32.one : Nat) : Int) := by
  have hm := sumMag_mono S L I h2
  have hdiv : sumMag S L I n / F32.one ≤ 500 := le_trans (Nat.div_le_div_right hm) h500
  unfold round_to_int
  rw [lit_half]
  simp only [F32.add]
  rw [← Nat.cast_add]
  have : F32.round ((aqiMag S L I n + F32.half : Nat) : Int) 1 =
      F32.fin (sumMag S L I n : Nat) := round_natCast (le_trans hm hr)
  rw [this]
  have h0 : ¬ (((sumMag S L I n : Nat) : Int) < 0) := by omega
  simp only [F32.toInt, h0, if_false]
  rw [← Int.natCast_div]
  apply min_eq_right
  have : ((sumMag S L I n / F32.one : Nat) : Int) ≤ 500 := by exact_mod_cast hdiv
  omega

/-- Result of the interpolation branch for a concentration inside a checked row. -/
theorem segment_result {b : aqi_breakpoint_t} (hb : seg_ok b) {c : F32}
    (h : in_segment c b = true) :
    ∃ n : Nat, c = F32.fin (n : Nat) ∧ F32.mag b.conc_lo ≤ n ∧ n ≤ F32.mag b.conc_hi ∧
      round_to_int (interpolate c b) =
        ((sumMag (F32.mag (slope b)) (F32.mag b.conc_lo) (F32.mag (F32.ofInt b.aqi_lo)) n
          / F32.one : Nat) : Int) := by
  obtain ⟨n, hc, h1, h2⟩ := in_segment_fin hb h
  refine ⟨n, hc, h1, h2, ?_⟩
  rw [hc, interpolate_fin hb h1 h2]
  obtain ⟨-, -, -, -, -, -, -, -, hr, -, hhi, h500⟩ := hb
  refine round_to_int_fin hr ?_ h2
  have : ((sumMag (F32.mag (slope b)) (F32.mag b.conc_lo) (F32.mag (F32.ofInt b.aqi_lo))
    (F32.mag b.conc_hi) / F32.one : Nat) : Int) ≤ 500 := by rw [hhi]; exact h500
  exact_mod_cast this

theorem segment_bounds {b : aqi_breakpoint_t} (hb : seg_ok b) {c : F32}
    (h : in_segment c b = true) :
    b.aqi_lo ≤ round_to_int (interpolate c b) ∧ round_to_int (interpolate c b) ≤ b.aqi_hi := by
  obtain ⟨n, -, h1, h2, hres⟩ := segment_result hb h
  obtain ⟨-, -, -, -, -, -, -, -, -, hlo, hhi, -⟩ := hb
  have e1 := Int.ofNat_le.2 (Nat.div_le_div_right (c := F32.one) (sumMag_mono
    (F32.mag (slope b)) (F32.mag b.conc_lo) (F32.mag (F32.ofInt b.aqi_lo)) h1))
  have e2 := Int.ofNat_le.2 (Nat.div_le_div_right (c := F32.one) (sumMag_mono
    (F32.mag (slope b)) (F32.mag b.conc_lo) (F32.mag (F32.ofInt b.aqi_lo)) h2))
  exact ⟨hlo.symm.trans_le (e1.trans_eq hres.symm), (hres.trans_le e2).trans_eq hhi⟩

theorem aqi_lo_nonneg {b : aqi_breakpoint_t} (hb : seg_ok b) : 0 ≤ b.aqi_lo := by
  obtain ⟨-, -, -, -, -, -, -, -, -, hlo, -, -⟩ := hb
  rw [← hlo]
  exact Int.ofNat_nonneg _

theorem calculate_aqi_find (c : F32) (bps : List aqi_breakpoint_t) :
    calculate_aqi c bps =
      match bps.find? (in_segment c) with
      | some b => round_to_int (interpolate c b)
      | none => 500 := by
  induction bps with
  | nil => rfl
  | cons b rest ih =>
    unfold calculate_aqi
    by_cases h : in_segment c b = true
    · simp [List.find?, h]
    · simp only [h, List.find?]
      simpa using ih

theorem calculate_aqi_range {bps : List aqi_breakpoint_t} (hok : ∀ b ∈ bps, seg_ok b)
    (c : F32) : 0 ≤ calculate_aqi c bps ∧ calculate_aqi c bps ≤ 500 := by
  induction bps with
  | nil => simp [calculate_aqi]
  | cons b rest ih =>
    have hb := hok b (List.mem_cons_self _ _)
    unfold calculate_aqi
    by_cases h : in_segment c b = true
    · rw [if_pos h]
      obtain ⟨h1, h2⟩ := segment_bounds hb h
      have h0 := aqi_lo_nonneg hb
      have h5 : b.aqi_hi ≤ 500 := hb.2.2.2.2.2.2.2.2.2.2.2
      omega
    · rw [if_neg h]
      exact ih (fun x hx => hok x (List.mem_cons_of_mem _ hx))

theorem seg_before_disjoint {a b : aqi_breakpoint_t} (ha : seg_ok a) (hb : seg_ok b)
    (hab : seg_before a b) {c : F32} (hca : in_segment c a = true)
    (hcb : in_segment c b = true) : False := by
  obtain ⟨n, hn, -, hnH⟩ := in_segment_fin ha hca
  obtain ⟨m, hm, hmL, -⟩ := in_segment_fin hb hcb
  have hnm : n = m := by
    rw [hn] at hm
    injection hm with hm
    exact_mod_cast hm
  subst hnm
  unfold seg_before at hab
  rw [hb.1, ha.2.1] at hab
  simp only [F32.le, decide_eq_false_iff_not] at hab
  apply hab
  exact_mod_cast le_trans hmL hnH

theorem calculate_aqi_of_mem {bps : List aqi_breakpoint_t} (hok : ∀ b ∈ bps, seg_ok b)
    (hsep : bps.Pairwise seg_before) {b : aqi_breakpoint_t} (hb : b ∈ bps) {c : F32}
    (hc : in_segment c b = true) :
    calculate_aqi c bps = round_to_int (interpolate c b) := by
  induction bps with
  | nil => simp at hb
  | cons a rest ih =>
    unfold calculate_aqi
    rw [List.pairwise_cons] at hsep
    rcases List.mem_cons.1 hb with rfl | hmem
    · rw [if_pos hc]
    · have hna : ¬ in_segment c a = true := fun hca =>
        seg_before_disjoint (hok a (List.mem_cons_self _ _)) (hok b hb) (hsep.1 b hmem) hca hc
      rw [if_neg hna]
      exact ih (fun x hx => hok x (List.mem_cons_of_mem _ hx)) hsep.2 hmem

theorem calculate_aqi_mono {bps : List aqi_breakpoint_t} (hok : ∀ b ∈ bps, seg_ok b)
    (hsep : bps.Pairwise seg_before) {b : aqi_breakpoint_t} (hb : b ∈ bps) {c1 c2 : F32}
    (h12 : F32.le c1 c2 = true) (h1 : F32.ge c1 b.conc_lo = true)
    (h2 : F32.le c2 b.conc_hi = true) :
    calculate_aqi c1 bps ≤ calculate_aqi c2 bps := by
  have hsb := hok b hb
  obtain ⟨L, hL⟩ : ∃ L : Nat, b.conc_lo = F32.fin (L : Nat) := ⟨_, hsb.1⟩
  obtain ⟨H, hH⟩ : ∃ H : Nat, b.conc_hi = F32.fin (H : Nat) := ⟨_, hsb.2.1⟩
  -- both concentrations are finite and inside the row
  have hin : in_segment c1 b = true ∧ in_segment c2 b = true := by
    unfold in_segment F32.ge
    unfold F32.ge at h1
    rw [hL] at h1 ⊢
    rw [hH] at h2 ⊢
    cases c1 with
    | nan => simp [F32.le] at h1
    | inf s =>
      cases c2 with
      | nan => simp [F32.le] at h2
      | inf t => cases t <;> cases s <;> simp [F32.le] at h1 h2 h12
      | fin m => cases s <;> simp [F32.le] at h1 h12
    | fin n =>
      cases c2 with
      | nan => simp [F32.le] at h2
      | inf s => cases s <;> simp [F32.le] at h2 h12
      | fin m =>
        simp only [F32.le, decide_eq_true_eq, Bool.and_eq_true] at h1 h2 h12 ⊢
        omega
  obtain ⟨n1, hn1, -, -, hr1⟩ := segment_result hsb hin.1
  obtain ⟨n2, hn2, -, -, hr2⟩ := segment_result hsb hin.2
  rw [calculate_aqi_of_mem hok hsep hb hin.1, calculate_aqi_of_mem hok hsep hb hin.2, hr1, hr2]
  have hle : n1 ≤ n2 := by
    rw [hn1, hn2] at h12
    simpa [F32.le] using h12
  exact Int.ofNat_le.2 (Nat.div_le_div_right (sumMag_mono _ _ _ hle))

theorem ilog2_eq_of_bounds {m x : Nat} (h1 : 2 ^ m ≤ x) (h2 : x < 2 ^ (m + 1)) : ilog2 x = m := by
  have hx : x ≠ 0 := by
    have : 0 < 2 ^ m := by positivity
    omega
  have h3 := pow_ilog2_le hx
  have h4 := lt_pow_ilog2 x
  have h5 : 2 ^ m < 2 ^ (ilog2 x + 1) := lt_of_le_of_lt h1 h4
  have h6 : 2 ^ ilog2 x < 2 ^ (m + 1) := lt_of_le_of_lt h3 h2
  have h7 := (Nat.pow_lt_pow_iff_right (by norm_num : 1 < 2)).1 h5
  have h8 := (Nat.pow_lt_pow_iff_right (by norm_num : 1 < 2)).1 h6
  omega

theorem ilog2_pow (k : Nat) : ilog2 (2 ^ k) = k :=
  ilog2_eq_of_bounds (le_refl _) (Nat.pow_lt_pow_right (by norm_num) (Nat.lt_succ_self k))

theorem rne_le_pow {y q : Nat} (hq : 0 < q) :
    rne y (q * quantum y q) ≤ 2 ^ 24 := by
  unfold quantum
  apply rne_le (by positivity)
  have h1 := lt_pow_ilog2 (y / q)
  have h2 : y / q < 2 ^ (ilog2 (y / q) - 23 + 24) :=
    lt_of_lt_of_le h1 (Nat.pow_le_pow_right (by norm_num) (by omega))
  have h3 : y < 2 ^ (ilog2 (y / q) - 23 + 24) * q := (Nat.div_lt_iff_lt_mul hq).1 h2
  calc y ≤ 2 ^ (ilog2 (y / q) - 23 + 24) * q := le_of_lt h3
    _ = 2 ^ 24 * (q * 2 ^ (ilog2 (y / q) - 23)) := by ring

theorem roundMag_on_grid {y q : Nat} (hq : 0 < q) : on_grid (roundMag y q) := by
  have hr := rne_le_pow (y := y) hq
  unfold on_grid roundMag
  generalize rne y (q * quantum y q) = r at hr
  unfold quantum
  generalize ilog2 (y / q) - 23 = s
  rcases Nat.eq_zero_or_pos r with h0 | hpos
  · subst h0; simp
  rcases Nat.lt_or_ge r (2 ^ 24) with hlt | hge
  · have hne : 2 ^ s * r ≠ 0 := by positivity
    have h1 : 2 ^ s * r < 2 ^ (s + 24) := by
      rw [pow_add]; exact Nat.mul_lt_mul_of_pos_left hlt (by positivity)
    have h2 := pow_ilog2_le hne
    have h3 : 2 ^ ilog2 (2 ^ s * r) < 2 ^ (s + 24) := lt_of_le_of_lt h2 h1
    have h4 := (Nat.pow_lt_pow_iff_right (by norm_num : 1 < 2)).1 h3
    have h5 : ilog2 (2 ^ s * r) - 23 ≤ s := by omega
    apply Nat.mod_eq_zero_of_dvd
    exact Dvd.dvd.mul_right (pow_dvd_pow 2 h5) r
  · have hre : r = 2 ^ 24 := le_antisymm hr hge
    subst hre
    rw [← pow_add, ilog2_pow]
    apply Nat.mod_eq_zero_of_dvd
    exact pow_dvd_pow 2 (by omega)

theorem add_half_case (e a : Nat) (he1 : 148 ≤ e) (he2 : e ≤ 157) (hlo : 2 ^ e ≤ a)
    (hhi : a < 2 ^ (e + 1)) (hdiv : a % 2 ^ (e - 23) = 0) :
    roundMag (a + 2 ^ 148) 1 / 2 ^ 149 = (a + 2 ^ 148) / 2 ^ 149 := by
  have hp : 2 ^ 148 ≤ 2 ^ e := Nat.pow_le_pow_right (by norm_num) he1
  rcases Nat.lt_or_ge (a + 2 ^ 148) (2 ^ (e + 1)) with hx | hx
  · have hl : ilog2 (a + 2 ^ 148) = e :=
      ilog2_eq_of_bounds (le_trans hlo (Nat.le_add_right _ _)) hx
    unfold roundMag quantum
    rw [Nat.div_one, hl]
    unfold rne
    clear hl hp
    interval_cases e <;> norm_num at hlo hhi hdiv hx ⊢ <;> split_ifs <;> omega
  · have hl : ilog2 (a + 2 ^ 148) = e + 1 := by
      apply ilog2_eq_of_bounds hx
      have : 2 ^ (e + 1 + 1) = 2 ^ (e + 1) + 2 ^ (e + 1) := by ring
      have h2 : 2 ^ e ≤ 2 ^ (e + 1) := Nat.pow_le_pow_right (by norm_num) (Nat.le_succ e)
      omega
    unfold roundMag quantum
    rw [Nat.div_one, hl]
    unfold rne
    clear hl hp
    interval_cases e <;> norm_num at hlo hhi hdiv hx ⊢ <;> split_ifs <;> omega

set_option maxRecDepth 100000 in
theorem roundMag_below_one_b : roundMag (2 ^ 149 - 2 ^ 125) 1 = 2 ^ 149 - 2 ^ 125 := by decide

set_option maxRecDepth 100000 in
theorem roundMag_pred_half : roundMag (2 ^ 148 - 2 ^ 124 + 2 ^ 148) 1 = 2 ^ 149 := by decide

/-- Adding `0.5f` to a non-negative binary32 number below 512 and truncating rounds the number
to the nearest integer, halves upward, with one exception: the binary32 number just below
`0.5` is sent to `1`. -/
theorem add_half_trunc (a : Nat) (hg : on_grid a) (hlt : a < 2 ^ 158) :
    roundMag (a + 2 ^ 148) 1 / 2 ^ 149 =
      if a = 2 ^ 148 - 2 ^ 124 then 1 else (a + 2 ^ 148) / 2 ^ 149 := by
  by_cases hex : a = 2 ^ 148 - 2 ^ 124
  · rw [if_pos hex, hex, roundMag_pred_half]
    norm_num
  rw [if_neg hex]
  rcases Nat.lt_or_ge a (2 ^ 148) with hsmall | hbig
  · -- the sum stays below one
    have hle : a + 2 ^ 148 ≤ 2 ^ 149 - 2 ^ 125 := by
      rcases Nat.lt_or_ge a (2 ^ 147) with h1 | h1
      · omega
      · have hl : ilog2 a = 147 := ilog2_eq_of_bounds h1 hsmall
        unfold on_grid at hg
        rw [hl] at hg
        norm_num at hg hsmall hex h1 ⊢
        omega
    have h1 := roundMag_mono Nat.one_pos hle
    rw [roundMag_below_one_b] at h1
    have h2 : roundMag (a + 2 ^ 148) 1 / 2 ^ 149 = 0 := by
      apply Nat.div_eq_of_lt
      norm_num at h1 ⊢
      omega
    have h3 : (a + 2 ^ 148) / 2 ^ 149 = 0 := by
      apply Nat.div_eq_of_lt
      omega
    rw [h2, h3]
  · have ha0 : a ≠ 0 := by
      have : 0 < 2 ^ 148 := by positivity
      omega
    have h1 := pow_ilog2_le ha0
    have h2 := lt_pow_ilog2 a
    have h3 : 2 ^ ilog2 a < 2 ^ 158 := lt_of_le_of_lt h1 hlt
    have h4 := (Nat.pow_lt_pow_iff_right (by norm_num : 1 < 2)).1 h3
    have h5 : 2 ^ 148 < 2 ^ (ilog2 a + 1) := lt_of_le_of_lt hbig h2
    have h6 := (Nat.pow_lt_pow_iff_right (by norm_num : 1 < 2)).1 h5
    exact add_half_case (ilog2 a) a (by omega) (by omega) h1 h2 hg

/-! ## Truncation after adding `0.5f` against rounding half-away-from-zero -/

set_option maxRecDepth 100000 in
theorem roundMag_512 : roundMag (2 ^ 158) 1 = 2 ^ 158 := by decide

theorem aqiMag_lt {S L I n : Nat} (h500 : sumMag S L I n / F32.one ≤ 500) :
    aqiMag S L I n < 2 ^ 158 := by
  by_contra hcon
  have hge : 2 ^ 158 ≤ aqiMag S L I n + F32.half := by omega
  have h1 := roundMag_mono Nat.one_pos hge
  rw [roundMag_512] at h1
  have h2 : 2 ^ 158 / F32.one ≤ sumMag S L I n / F32.one := Nat.div_le_div_right h1
  have h3 : 2 ^ 158 / F32.one = 512 := by norm_num [F32.one]
  omega

/-- Inside a checked row the result of line 110 is the interpolated value rounded
half-away-from-zero, except at the binary32 number just below `0.5`. -/
theorem round_to_int_interpolate {b : aqi_breakpoint_t} (hb : seg_ok b) {c : F32}
    (h : in_segment c b = true) :
    round_to_int (interpolate c b) =
      if interpolate c b = F32.pred_half then 1 else F32.round_half_away (interpolate c b) := by
  obtain ⟨n, hc, h1, h2, hres⟩ := segment_result hb h
  have hint := interpolate_fin hb h1 h2
  rw [← hc] at hint
  have hle : round_to_int (interpolate c b) ≤ 500 :=
    le_trans (segment_bounds hb h).2 hb.2.2.2.2.2.2.2.2.2.2.2
  rw [hres] at hle ⊢
  rw [hint]
  generalize F32.mag (slope b) = S at *
  generalize F32.mag b.conc_lo = L at *
  generalize F32.mag (F32.ofInt b.aqi_lo) = I at *
  have h500 : sumMag S L I n / F32.one ≤ 500 := by exact_mod_cast hle
  have hlt := aqiMag_lt h500
  have hg : on_grid (aqiMag S L I n) := roundMag_on_grid Nat.one_pos
  have key := add_half_trunc (aqiMag S L I n) hg hlt
  have hsum : sumMag S L I n = roundMag (aqiMag S L I n + 2 ^ 148) 1 := rfl
  have hone : F32.one = 2 ^ 149 := rfl
  rw [hsum, hone, key]
  generalize aqiMag S L I n = a at *
  have hpred : (F32.fin (a : Nat) = F32.pred_half) ↔ a = 2 ^ 148 - 2 ^ 124 := by
    unfold F32.pred_half
    constructor
    · intro h; injection h with h; omega
    · intro h; subst h; norm_num
  by_cases ha : a = 2 ^ 148 - 2 ^ 124
  · rw [if_pos ha, if_pos (hpred.2 ha)]; rfl
  · rw [if_neg ha, if_neg (fun h => ha (hpred.1 h))]
    have h0 : ¬ (((a : Nat) : Int) < 0) := by omega
    simp only [F32.round_half_away, h0, if_false]
    have hq : (a + 2 ^ 148) / 2 ^ 149 ≤ 512 := by omega
    have e : (((a : Nat) : Int) + ((F32.half : Nat) : Int)) / ((F32.one : Nat) : Int) =
        (((a + 2 ^ 148) / 2 ^ 149 : Nat) : Int) := by
      rw [Int.natCast_div]; rfl
    rw [e]
    symm
    apply min_eq_right
    omega

/-! ## The three tables -/

set_option maxRecDepth 100000 in
theorem pm25_pairwise : pm25_breakpoints.Pairwise seg_before := by decide

set_option maxRecDepth 100000 in
theorem pm10_pairwise : pm10_breakpoints.Pairwise seg_before := by decide

set_option maxRecDepth 100000 in
theorem nox_pairwise : nox_breakpoints.Pairwise seg_before := by decide

theorem aqi_tables_ok {t : List aqi_breakpoint_t} (ht : t ∈ aqi_tables) :
    (∀ b ∈ t, seg_ok b) ∧ t.Pairwise seg_before := by
  simp only [aqi_tables, List.mem_cons, List.mem_singleton, List.not_mem_nil, or_false] at ht
  rcases ht with rfl | rfl | rfl
  · exact ⟨pm25_seg_ok, pm25_pairwise⟩
  · exact ⟨pm10_seg_ok, pm10_pairwise⟩
  · exact ⟨nox_seg_ok, nox_pairwise⟩

theorem pm25_mem : pm25_breakpoints ∈ aqi_tables := List.mem_cons_self _ _

theorem pm10_mem : pm10_breakpoints ∈ aqi_tables :=
  List.mem_cons_of_mem _ (List.mem_cons_self _ _)

theorem nox_mem : nox_breakpoints ∈ aqi_tables :=
  List.mem_cons_of_mem _ (List.mem_cons_of_mem _ (List.mem_cons_self _ _))

set_option maxRecDepth 100000 in
theorem calculate_aqi_examples :
    calculate_aqi (F32.lit 0 1) pm25_breakpoints = 0 ∧
    calculate_aqi (F32.lit 12 1) pm25_breakpoints = 50 ∧
    calculate_aqi (F32.lit 600 1) pm25_breakpoints = 500 := by decide

/-! ## Sign of the converted concentrations -/

theorem round_nonneg_cases {p : Int} (hp : 0 ≤ p) (q : Nat) :
    (∃ m : Nat, F32.round p q = F32.fin (m : Nat)) ∨ F32.round p q = F32.inf false := by
  have h0 : ¬ (p < 0) := by omega
  unfold F32.round
  by_cases h : roundMag p.natAbs q ≤ F32.maxMag
  · left
    exact ⟨roundMag p.natAbs q, by simp [h, h0]⟩
  · right
    simp [h, h0]

set_option maxRecDepth 100000 in
theorem lit_ten : F32.lit 10 1 = F32.fin ((10 * 2 ^ 149 : Nat) : Int) := by decide

set_option maxRecDepth 100000 in
theorem lit_zero : F32.lit 0 1 = F32.fin 0 := by decide

theorem div_ten_nonneg {k : Int} (hk : 0 ≤ k) :
    F32.le (F32.lit 0 1) (F32.div (F32.ofInt k) (F32.lit 10 1)) = true := by
  rw [lit_zero, lit_ten]
  have hT : ¬ (((10 * 2 ^ 149 : Nat) : Int) = 0) := by norm_num
  have hT2 : ¬ (((10 * 2 ^ 149 : Nat) : Int) < 0) := by norm_num
  have hp : (0 : Int) ≤ k * (F32.one : Int) := mul_nonneg hk (Int.ofNat_nonneg _)
  unfold F32.ofInt
  rcases round_nonneg_cases hp 1 with ⟨m, hm⟩ | hinf
  · rw [hm]
    simp only [F32.div, hT, hT2, if_false]
    have hp2 : (0 : Int) ≤ (m : Int) * (F32.one : Int) :=
      mul_nonneg (Int.ofNat_nonneg _) (Int.ofNat_nonneg _)
    rcases round_nonneg_cases hp2 ((10 * 2 ^ 149 : Nat) : Int).natAbs with ⟨r, hr⟩ | hinf2
    · rw [hr]; simp [F32.le]
    · rw [hinf2]; simp [F32.le]
  · rw [hinf]
    simp [F32.div, F32.le]

set_option maxRecDepth 100000 in
theorem roundMag_int_bounds :
    roundMag (1 * F32.one) 1 = F32.one ∧
    roundMag (32768 * F32.one) 1 = 32768 * F32.one ∧
    0 < roundMag (F32.one * F32.one) (10 * 2 ^ 149) ∧
    roundMag (32768 * F32.one * F32.one) (10 * 2 ^ 149) ≤ F32.maxMag ∧
    32768 * F32.one ≤ F32.maxMag := by decide

theorem div_ten_neg {k : Int} (h1 : -32768 ≤ k) (h2 : k < 0) :
    ∃ n : Int, n < 0 ∧ F32.div (F32.ofInt k) (F32.lit 10 1) = F32.fin n := by
  obtain ⟨b1, b2, b3, b4, b5⟩ := roundMag_int_bounds
  obtain ⟨j, hj⟩ : ∃ j : Nat, k = -(j : Int) := ⟨(-k).toNat, by omega⟩
  have hj1 : 1 ≤ j := by omega
  have hj2 : j ≤ 32768 := by omega
  -- the conversion to float
  have hm1 : F32.one ≤ roundMag (j * F32.one) 1 := by
    have := roundMag_mono (q := 1) Nat.one_pos (Nat.mul_le_mul_right F32.one hj1)
    rwa [b1] at this
  have hm2 : roundMag (j * F32.one) 1 ≤ 32768 * F32.one := by
    have := roundMag_mono (q := 1) Nat.one_pos (Nat.mul_le_mul_right F32.one hj2)
    rwa [b2] at this
  have hone : 0 < F32.one := by unfold F32.one; positivity
  have hof : F32.ofInt k = F32.fin (-((roundMag (j * F32.one) 1 : Nat) : Int)) := by
    have hneg : k * (F32.one : Int) < 0 := by
      have : (0 : Int) < (F32.one : Int) := by exact_mod_cast hone
      nlinarith
    have habs : (k * (F32.one : Int)).natAbs = j * F32.one := by
      rw [hj, Int.natAbs_mul, Int.natAbs_neg, Int.natAbs_ofNat, Int.natAbs_ofNat]
    unfold F32.ofInt F32.round
    rw [habs, if_pos (le_trans hm2 b5), if_pos hneg]
  generalize roundMag (j * F32.one) 1 = m at hm1 hm2 hof
  -- the division by 10.0f
  have hr1 : 0 < roundMag (m * F32.one) (10 * 2 ^ 149) :=
    lt_of_lt_of_le b3 (roundMag_mono (by norm_num) (Nat.mul_le_mul_right F32.one hm1))
  have hr2 : roundMag (m * F32.one) (10 * 2 ^ 149) ≤ F32.maxMag :=
    le_trans (roundMag_mono (by norm_num) (Nat.mul_le_mul_right F32.one hm2)) b4
  have hT : ¬ (((10 * 2 ^ 149 : Nat) : Int) = 0) := by norm_num
  have hT2 : ¬ (((10 * 2 ^ 149 : Nat) : Int) < 0) := by norm_num
  have hmpos : 0 < m := lt_of_lt_of_le hone hm1
  have hneg : -((m : Nat) : Int) * (F32.one : Int) < 0 := by
    have h1 : (0 : Int) < (F32.one : Int) := by exact_mod_cast hone
    have h2 : (0 : Int) < (m : Int) := by exact_mod_cast hmpos
    nlinarith
  have habs : (-((m : Nat) : Int) * (F32.one : Int)).natAbs = m * F32.one := by
    rw [Int.natAbs_mul, Int.natAbs_neg, Int.natAbs_ofNat, Int.natAbs_ofNat]
  refine ⟨-((roundMag (m * F32.one) (10 * 2 ^ 149) : Nat) : Int), by omega, ?_⟩
  rw [hof, lit_ten]
  simp only [F32.div, hT, hT2, if_false]
  unfold F32.round
  rw [habs, Int.natAbs_ofNat, if_pos hr2, if_pos hneg]

theorem calculate_aqi_negative {bps : List aqi_breakpoint_t} (hok : ∀ b ∈ bps, seg_ok b)
    {n : Int} (hn : n < 0) : calculate_aqi (F32.fin n) bps = 500 := by
  induction bps with
  | nil => rfl
  | cons b rest ih =>
    unfold calculate_aqi
    have hb := hok b (List.mem_cons_self _ _)
    have hno : ¬ in_segment (F32.fin n) b = true := by
      intro hin
      obtain ⟨m, hm, -, -⟩ := in_segment_fin hb hin
      injection hm with hm
      omega
    rw [if_neg hno]
    exact ih (fun x hx => hok x (List.mem_cons_of_mem _ hx))

/-! ## Concentrations computed from register values -/

theorem convMag_mono {j k : Nat} (h : j ≤ k) : convMag j ≤ convMag k :=
  roundMag_mono (by norm_num)
    (Nat.mul_le_mul_right _ (roundMag_mono Nat.one_pos (Nat.mul_le_mul_right _ h)))

set_option maxRecDepth 100000 in
theorem convMag_bounds :
    roundMag (65535 * F32.one) 1 ≤ F32.maxMag ∧ convMag 65535 ≤ F32.maxMag := by decide

theorem div_ten_fin {k : Nat} (hk : k ≤ 65535) :
    F32.div (F32.ofInt (k : Nat)) (F32.lit 10 1) = F32.fin (convMag k : Nat) := by
  obtain ⟨b1, b2⟩ := convMag_bounds
  have h1 : roundMag (k * F32.one) 1 ≤ F32.maxMag :=
    le_trans (roundMag_mono Nat.one_pos (Nat.mul_le_mul_right _ hk)) b1
  have h2 : convMag k ≤ F32.maxMag := le_trans (convMag_mono hk) b2
  have hof : F32.ofInt (k : Nat) = F32.fin (roundMag (k * F32.one) 1 : Nat) := by
    unfold F32.ofInt
    rw [← Nat.cast_mul]
    exact round_natCast h1
  have hT : ¬ (((10 * 2 ^ 149 : Nat) : Int) = 0) := by norm_num
  have hT2 : ¬ (((10 * 2 ^ 149 : Nat) : Int) < 0) := by norm_num
  rw [hof, lit_ten]
  simp only [F32.div, hT, hT2, if_false]
  rw [← Nat.cast_mul, Int.natAbs_ofNat]
  exact round_natCast h2

set_option maxRecDepth 100000 in
theorem small_registers :
    ∀ k ∈ List.range 6, ∀ t ∈ aqi_tables, ∀ b ∈ t,
      in_segment (F32.div (F32.ofInt (k : Nat)) (F32.lit 10 1)) b = true →
        interpolate (F32.div (F32.ofInt (k : Nat)) (F32.lit 10 1)) b ≠ F32.pred_half := by
  decide

set_option maxRecDepth 100000 in
theorem large_registers :
    ∀ t ∈ aqi_tables, ∀ b ∈ t,
      2 ^ 148 - 2 ^ 124 <
        aqiMag (F32.mag (slope b)) (F32.mag b.conc_lo) (F32.mag (F32.ofInt b.aqi_lo))
          (convMag 6) := by
  decide

theorem interpolate_ne_pred_half {t : List aqi_breakpoint_t} (ht : t ∈ aqi_tables)
    {b : aqi_breakpoint_t} (hb : b ∈ t) {k : Int} (h1 : -32768 ≤ k) (h2 : k ≤ 65535)
    (hin : in_segment (F32.div (F32.ofInt k) (F32.lit 10 1)) b = true) :
    interpolate (F32.div (F32.ofInt k) (F32.lit 10 1)) b ≠ F32.pred_half := by
  have hok := (aqi_tables_ok ht).1 b hb
  rcases lt_or_le k 0 with hneg | hpos
  · obtain ⟨n, hn, he⟩ := div_ten_neg h1 hneg
    rw [he] at hin
    obtain ⟨m, hm, -, -⟩ := in_segment_fin hok hin
    injection hm with hm
    omega
  · lift k to Nat using hpos
    have hk : k ≤ 65535 := by omega
    rcases Nat.lt_or_ge k 6 with hsmall | hlarge
    · exact small_registers k (List.mem_range.2 hsmall) t ht b hb hin
    · rw [div_ten_fin hk] at hin ⊢
      have hl := large_registers t ht b hb
      have hge : convMag 6 ≤ convMag k := convMag_mono hlarge
      generalize convMag 6 = n6 at hl hge
      generalize convMag k = nk at hin hge ⊢
      obtain ⟨n, hn, hn1, hn2⟩ := in_segment_fin hok hin
      have hnk : nk = n := by
        injection hn with hn
        exact Int.ofNat.inj hn
      subst hnk
      rw [interpolate_fin hok hn1 hn2]
      have hm := aqiMag_mono (F32.mag (slope b)) (F32.mag b.conc_lo)
        (F32.mag (F32.ofInt b.aqi_lo)) hge
      generalize aqiMag (F32.mag (slope b)) (F32.mag b.conc_lo)
        (F32.mag (F32.ofInt b.aqi_lo)) nk = a at hm
      generalize aqiMag (F32.mag (slope b)) (F32.mag b.conc_lo)
        (F32.mag (F32.ofInt b.aqi_lo)) n6 = a6 at hm hl
      unfold F32.pred_half
      intro h
      injection h with h
      omega

/-- For a concentration of the form `k / 10.0f` with `k` a 16-bit register value the result
of `calculate_aqi` is the interpolated value rounded half-away-from-zero, as the
specification words it. -/
theorem calculate_aqi_on_registers {t : List aqi_breakpoint_t} (ht : t ∈ aqi_tables)
    {k : Int} (h1 : -32768 ≤ k) (h2 : k ≤ 65535) :
    calculate_aqi (F32.div (F32.ofInt k) (F32.lit 10 1)) t =
      compute_index (F32.div (F32.ofInt k) (F32.lit 10 1)) t := by
  generalize hc : F32.div (F32.ofInt k) (F32.lit 10 1) = c
  have hfun : (fun b => F32.le b.conc_lo c && F32.le c b.conc_hi) = in_segment c := by
    funext b; rfl
  unfold compute_index
  rw [hfun, calculate_aqi_find]
  cases hfind : t.find? (in_segment c) with
  | none => rfl
  | some b =>
    have hin : in_segment c b = true := List.find?_some hfind
    have hmem : b ∈ t := List.mem_of_find?_eq_some hfind
    have hne : interpolate c b ≠ F32.pred_half := by
      rw [← hc] at hin ⊢
      exact interpolate_ne_pred_half ht hmem h1 h2 hin
    show round_to_int (interpolate c b) = F32.round_half_away (interpolate c b)
    rw [round_to_int_interpolate ((aqi_tables_ok ht).1 b hmem) hin, if_neg hne]

/-! ## Main results: the AQI engine -/

set_option maxRecDepth 100000 in
/-- C1, counterexample.  The binary32 concentration `16106127 * 2^-27` (about
`0.11999999732`) lies in the first PM2.5 segment and the interpolated value is the binary32
number just below `0.5`; the exact quotient `50 * c / 12` is below `1 / 2` as well.  Rounded
half-away-from-zero that is `0`, yet `calculate_aqi` returns `1`, because the binary32 sum
`aqi + 0.5f` rounds up to `1.0`. -/
theorem calculate_aqi_rounding_counterexample :
    on_grid (F32.mag conc_below_012) ∧
    in_segment conc_below_012 (bp 0 120 0 50) = true ∧
    interpolate conc_below_012 (bp 0 120 0 50) = F32.pred_half ∧
    2 * (50 * F32.mag conc_below_012) < 12 * F32.one ∧
    compute_index conc_below_012 pm25_breakpoints = 0 ∧
    calculate_aqi conc_below_012 pm25_breakpoints = 1 := by decide

/-- C1, as amended.  For every concentration and each of the three tables `calculate_aqi`
takes the first segment with `conc_lo <= c <= conc_hi`, evaluates the interpolation formula
in binary32 and returns `(int)(aqi + 0.5f)`; that is `aqi` rounded half-away-from-zero,
except that the binary32 number just below `0.5` gives `1`.  Without a matching segment the
result is `500`.  For a concentration `k / 10.0f` with `k` a 16-bit register value, the only
concentrations the sampling loop passes, the exception does not occur and the result is the
index as the specification words it.  The three sample values of the specification hold. -/
theorem calculate_aqi_first_segment (c : F32) (t : List aqi_breakpoint_t)
    (ht : t ∈ aqi_tables) :
    calculate_aqi c t =
        (match t.find? (fun b => F32.le b.conc_lo c && F32.le c b.conc_hi) with
         | some b =>
             if interpolate c b = F32.pred_half then 1
             else F32.round_half_away (interpolate c b)
         | none => 500) ∧
      (∀ k : Int, -32768 ≤ k → k ≤ 65535 →
        calculate_aqi (F32.div (F32.ofInt k) (F32.lit 10 1)) t =
          compute_index (F32.div (F32.ofInt k) (F32.lit 10 1)) t) ∧
      calculate_aqi (F32.lit 0 1) pm25_breakpoints = 0 ∧
      calculate_aqi (F32.lit 12 1) pm25_breakpoints = 50 ∧
      calculate_aqi (F32.lit 600 1) pm25_breakpoints = 500 := by
  refine ⟨?_, fun k h1 h2 => calculate_aqi_on_registers ht h1 h2, calculate_aqi_examples⟩
  have hfun : (fun b => F32.le b.conc_lo c && F32.le c b.conc_hi) = in_segment c := by
    funext b; rfl
  rw [hfun, calculate_aqi_find]
  cases hfind : t.find? (in_segment c) with
  | none => rfl
  | some b =>
    have hin : in_segment c b = true := List.find?_some hfind
    have hmem : b ∈ t := List.mem_of_find?_eq_some hfind
    exact round_to_int_interpolate ((aqi_tables_ok ht).1 b hmem) hin

set_option maxRecDepth 100000 in
/-- Witness for `calculate_aqi_first_segment`: the PM2.5 table at `20.0`, and at the register
value `200`. -/
theorem calculate_aqi_first_segment_witness :
    pm25_breakpoints ∈ aqi_tables ∧
    calculate_aqi (F32.lit 20 1) pm25_breakpoints =
        (match pm25_breakpoints.find?
            (fun b => F32.le b.conc_lo (F32.lit 20 1) && F32.le (F32.lit 20 1) b.conc_hi) with
         | some b =>
             if interpolate (F32.lit 20 1) b = F32.pred_half then 1
             else F32.round_half_away (interpolate (F32.lit 20 1) b)
         | none => 500) ∧
    calculate_aqi (F32.div (F32.ofInt 200) (F32.lit 10 1)) pm25_breakpoints =
      compute_index (F32.div (F32.ofInt 200) (F32.lit 10 1)) pm25_breakpoints ∧
    calculate_aqi (F32.lit 20 1) pm25_breakpoints = 68 :=
  ⟨pm25_mem, (calculate_aqi_first_segment (F32.lit 20 1) pm25_breakpoints pm25_mem).1,
    (calculate_aqi_first_segment (F32.lit 20 1) pm25_breakpoints pm25_mem).2.1 200
      (by decide) (by decide),
    by decide⟩

/-- C2.  For every binary32 concentration (negative, above the ceiling, infinite or NaN
included) and each of the three tables the result of `calculate_aqi` lies in `0..500`, and
when a segment of the table matches the result lies between the `aqi_lo` and the
`aqi_hi` of that segment. -/
theorem calculate_aqi_in_range (c : F32) (t : List aqi_breakpoint_t) (ht : t ∈ aqi_tables) :
    (0 ≤ calculate_aqi c t ∧ calculate_aqi c t ≤ 500) ∧
      ∀ b ∈ t, in_segment c b = true →
        b.aqi_lo ≤ calculate_aqi c t ∧ calculate_aqi c t ≤ b.aqi_hi := by
  obtain ⟨hok, hsep⟩ := aqi_tables_ok ht
  refine ⟨calculate_aqi_range hok c, fun b hb hin => ?_⟩
  rw [calculate_aqi_of_mem hok hsep hb hin]
  exact segment_bounds (hok b hb) hin

set_option maxRecDepth 100000 in
/-- Witness for `calculate_aqi_in_range`: the NOx table at `-0.1` (no segment) and the
PM10 table at `100.0` (second segment). -/
theorem calculate_aqi_in_range_witness :
    nox_breakpoints ∈ aqi_tables ∧
    (0 ≤ calculate_aqi (F32.lit (-1) 10) nox_breakpoints ∧
      calculate_aqi (F32.lit (-1) 10) nox_breakpoints ≤ 500) ∧
    (51 ≤ calculate_aqi (F32.lit 100 1) pm10_breakpoints ∧
      calculate_aqi (F32.lit 100 1) pm10_breakpoints ≤ 100) :=
  ⟨nox_mem, (calculate_aqi_in_range (F32.lit (-1) 10) nox_breakpoints nox_mem).1,
    (calculate_aqi_in_range (F32.lit 100 1) pm10_breakpoints pm10_mem).2
      (bp 550 1540 51 100) (by simp [pm10_breakpoints]) (by decide)⟩

set_option maxRecDepth 100000 in
/-- C3, the code at the failing input.  Register value `pm10p0 = 545` is converted to
`54.5`, which lies between `0` and the largest `conc_hi` of the PM10 table (`604.0`) but in
no segment of it, so `calculate_aqi` returns the fallback `500` and the loop computes the
composite `500`, while `54.0` gives `50` and `55.0` gives `51`. -/
theorem calculate_aqi_pm10_gap :
    (convert gap_raw).pm10 = F32.lit 545 10 ∧
    F32.le (F32.lit 0 1) (F32.lit 545 10) = true ∧
    F32.le (F32.lit 545 10) (F32.lit 6040 10) = true ∧
    (∀ b ∈ pm10_breakpoints, in_segment (F32.lit 545 10) b = false) ∧
    calculate_aqi (F32.lit 545 10) pm10_breakpoints = 500 ∧
    compute_aqi (convert gap_raw) = 500 ∧
    calculate_aqi (F32.lit 540 10) pm10_breakpoints = 50 ∧
    calculate_aqi (F32.lit 550 10) pm10_breakpoints = 51 := by decide

/-- C4.  Inside any one segment of any of the three tables `calculate_aqi` is monotonically
non-decreasing: for `conc_lo <= c1 <= c2 <= conc_hi` the result at `c1` is at most the result
at `c2`. -/
theorem calculate_aqi_monotone_in_segment (t : List aqi_breakpoint_t) (ht : t ∈ aqi_tables)
    (b : aqi_breakpoint_t) (hb : b ∈ t) (c1 c2 : F32) (h12 : F32.le c1 c2 = true)
    (h1 : F32.ge c1 b.conc_lo = true) (h2 : F32.le c2 b.conc_hi = true) :
    calculate_aqi c1 t ≤ calculate_aqi c2 t :=
  calculate_aqi_mono (aqi_tables_ok ht).1 (aqi_tables_ok ht).2 hb h12 h1 h2

set_option maxRecDepth 100000 in
/-- Witness for `calculate_aqi_monotone_in_segment`: `20.0 <= 30.0` in the second PM2.5
segment. -/
theorem calculate_aqi_monotone_in_segment_witness :
    (pm25_breakpoints ∈ aqi_tables ∧ bp 121 354 51 100 ∈ pm25_breakpoints ∧
      F32.le (F32.lit 20 1) (F32.lit 30 1) = true ∧
      F32.ge (F32.lit 20 1) (bp 121 354 51 100).conc_lo = true ∧
      F32.le (F32.lit 30 1) (bp 121 354 51 100).conc_hi = true) ∧
    calculate_aqi (F32.lit 20 1) pm25_breakpoints ≤
      calculate_aqi (F32.lit 30 1) pm25_breakpoints :=
  ⟨⟨pm25_mem, by simp [pm25_breakpoints], by decide, by decide, by decide⟩,
    calculate_aqi_monotone_in_segment pm25_breakpoints pm25_mem (bp 121 354 51 100)
      (by simp [pm25_breakpoints]) (F32.lit 20 1) (F32.lit 30 1) (by decide) (by decide)
      (by decide)⟩

/-! ## Main results: composite index, category and published record -/

theorem composite_aqi_max (a b c : Int) : composite_aqi a b c = max a (max b c) := by
  simp only [composite_aqi]; split_ifs <;> omega

/-- C5.  The composite computed by lines 344-346 is the maximum of the three sub-indices:
it is at least each of them, equals one of them, and does not depend on the order of the
arguments; `composite(10, 20, 30) = composite(30, 20, 10) = 30`. -/
theorem composite_aqi_is_max (a b c : Int) :
    composite_aqi a b c = max a (max b c) ∧
    a ≤ composite_aqi a b c ∧ b ≤ composite_aqi a b c ∧ c ≤ composite_aqi a b c ∧
    (composite_aqi a b c = a ∨ composite_aqi a b c = b ∨ composite_aqi a b c = c) ∧
    composite_aqi a c b = composite_aqi a b c ∧
    composite_aqi b a c = composite_aqi a b c ∧
    composite_aqi b c a = composite_aqi a b c ∧
    composite_aqi c a b = composite_aqi a b c ∧
    composite_aqi c b a = composite_aqi a b c ∧
    composite_aqi 10 20 30 = 30 ∧ composite_aqi 30 20 10 = 30 := by
  refine ⟨?_, ?_, ?_, ?_, ?_, ?_, ?_, ?_, ?_, ?_, by decide, by decide⟩ <;>
    simp only [composite_aqi] <;> split_ifs <;> omega

/-- C6.  The category returned by `get_aqi_category` is decided by the thresholds
50, 100, 150, 200 and 300 exactly, for every integer, and is always one of the six
category strings; `50` is good, `51` moderate and `500` hazardous. -/
theorem get_aqi_category_thresholds (aqi : Int) :
    (get_aqi_category aqi = "good" ↔ aqi ≤ 50) ∧
    (get_aqi_category aqi = "moderate" ↔ 51 ≤ aqi ∧ aqi ≤ 100) ∧
    (get_aqi_category aqi = "unhealthy_sensitive" ↔ 101 ≤ aqi ∧ aqi ≤ 150) ∧
    (get_aqi_category aqi = "unhealthy" ↔ 151 ≤ aqi ∧ aqi ≤ 200) ∧
    (get_aqi_category aqi = "very_unhealthy" ↔ 201 ≤ aqi ∧ aqi ≤ 300) ∧
    (get_aqi_category aqi = "hazardous" ↔ 301 ≤ aqi) ∧
    get_aqi_category aqi ∈ ["good", "moderate", "unhealthy_sensitive", "unhealthy",
      "very_unhealthy", "hazardous"] ∧
    get_aqi_category 50 = "good" ∧ get_aqi_category 51 = "moderate" ∧
    get_aqi_category 500 = "hazardous" := by
  refine ⟨?_, ?_, ?_, ?_, ?_, ?_, ?_, by decide, by decide, by decide⟩
  case refine_7 => unfold get_aqi_category; split_ifs <;> simp
  all_goals
    unfold get_aqi_category
    split_ifs <;> constructor <;> intro h <;>
    first
      | omega
      | rfl
      | exact absurd h (by decide)

/-- C7.  When the data-ready check succeeds and reports data, the read succeeds and the
mutex is obtained, the record published by the loop iteration has `valid = true`, each
reading equal to its register divided by its scale constant in binary32, the timestamp of
the iteration, and `aqi` equal to the maximum of the three `calculate_aqi` results on the
converted PM2.5, PM10 and NOx values. -/
theorem sensor_task_cycle_publishes (e : cycle_env) (g : sensor_data_t)
    (hret : e.ready_ret = 0) (hready : e.ready = true) (hread : e.read_ret = 0)
    (hlock : e.lock = true) :
    (sensor_task_cycle e g).valid = true ∧
    (sensor_task_cycle e g).pm1_0 = F32.div (F32.ofInt e.raw.pm1p0) (F32.lit 10 1) ∧
    (sensor_task_cycle e g).pm2_5 = F32.div (F32.ofInt e.raw.pm2p5) (F32.lit 10 1) ∧
    (sensor_task_cycle e g).pm4_0 = F32.div (F32.ofInt e.raw.pm4p0) (F32.lit 10 1) ∧
    (sensor_task_cycle e g).pm10 = F32.div (F32.ofInt e.raw.pm10p0) (F32.lit 10 1) ∧
    (sensor_task_cycle e g).temperature = F32.div (F32.ofInt e.raw.temp_raw) (F32.lit 200 1) ∧
    (sensor_task_cycle e g).humidity = F32.div (F32.ofInt e.raw.hum) (F32.lit 100 1) ∧
    (sensor_task_cycle e g).voc_index = F32.div (F32.ofInt e.raw.voc_idx) (F32.lit 10 1) ∧
    (sensor_task_cycle e g).nox_index = F32.div (F32.ofInt e.raw.nox_idx) (F32.lit 10 1) ∧
    (sensor_task_cycle e g).timestamp = e.now ∧
    (sensor_task_cycle e g).aqi =
      max (calculate_aqi (F32.div (F32.ofInt e.raw.pm2p5) (F32.lit 10 1)) pm25_breakpoints)
        (max (calculate_aqi (F32.div (F32.ofInt e.raw.pm10p0) (F32.lit 10 1)) pm10_breakpoints)
          (calculate_aqi (F32.div (F32.ofInt e.raw.nox_idx) (F32.lit 10 1)) nox_breakpoints)) := by
  have hs : sensor_task_cycle e g = publish (convert e.raw) (compute_aqi (convert e.raw)) e.now := by
    simp [sensor_task_cycle, hret, hready, hread, hlock]
  rw [hs]
  simp only [publish, convert, compute_aqi, composite_aqi_max, and_self]

set_option maxRecDepth 100000 in
theorem example_env_values :
    F32.div (F32.ofInt ((350 : Nat) : Int)) (F32.lit 10 1) = F32.lit 35 1 ∧
    F32.div (F32.ofInt ((540 : Nat) : Int)) (F32.lit 10 1) = F32.lit 54 1 ∧
    F32.div (F32.ofInt 0) (F32.lit 10 1) = F32.lit 0 1 ∧
    max (calculate_aqi (F32.lit 35 1) pm25_breakpoints)
        (max (calculate_aqi (F32.lit 54 1) pm10_breakpoints)
          (calculate_aqi (F32.lit 0 1) nox_breakpoints)) = 99 := by decide

/-- Witness for `sensor_task_cycle_publishes`: registers `pm2p5 = 350`, `pm10p0 = 540`,
`nox_idx = 0` starting from the initial record give `valid = true` and
`aqi = max(calculate_aqi(35.0, pm25), calculate_aqi(54.0, pm10), calculate_aqi(0.0, nox))`,
which is `99`. -/
theorem sensor_task_cycle_publishes_witness :
    (example_env.ready_ret = 0 ∧ example_env.ready = true ∧ example_env.read_ret = 0 ∧
      example_env.lock = true) ∧
    (sensor_task_cycle example_env g_sensor_data).valid = true ∧
    (sensor_task_cycle example_env g_sensor_data).aqi =
      max (calculate_aqi (F32.lit 35 1) pm25_breakpoints)
        (max (calculate_aqi (F32.lit 54 1) pm10_breakpoints)
          (calculate_aqi (F32.lit 0 1) nox_breakpoints)) ∧
    (sensor_task_cycle example_env g_sensor_data).aqi = 99 := by
  have h := sensor_task_cycle_publishes example_env g_sensor_data rfl rfl rfl rfl
  have ha := h.2.2.2.2.2.2.2.2.2.2
  have hv := example_env_values
  have e1 : F32.div (F32.ofInt example_env.raw.pm2p5) (F32.lit 10 1) = F32.lit 35 1 := hv.1
  have e2 : F32.div (F32.ofInt example_env.raw.pm10p0) (F32.lit 10 1) = F32.lit 54 1 := hv.2.1
  have e3 : F32.div (F32.ofInt example_env.raw.nox_idx) (F32.lit 10 1) = F32.lit 0 1 := hv.2.2.1
  rw [e1, e2, e3] at ha
  exact ⟨⟨rfl, rfl, rfl, rfl⟩, h.1, ha, ha.trans hv.2.2.2⟩

/-! ## Main results: concentrations passed to the AQI engine -/

set_option maxRecDepth 100000 in
/-- C8, counterexample.  With `nox_idx = -1` the concentration handed to `calculate_aqi`
for the NOx table is `-0.1`, below zero: nothing clamps it.  The call returns `500` and the
composite index is `500`. -/
theorem sensor_task_no_clamp_counterexample :
    F32.le (F32.lit 0 1) (convert negative_nox).nox = false ∧
    (convert negative_nox).nox = F32.lit (-1) 10 ∧
    calculate_aqi (convert negative_nox).nox nox_breakpoints = 500 ∧
    compute_aqi (convert negative_nox) = 500 := by decide

/-- C8, as amended.  The PM2.5 and PM10 concentrations handed to `calculate_aqi` are never
below zero, because the registers are unsigned; the NOx concentration is `nox_idx / 10.0f`
without any clamp, so it is non-negative exactly when the signed register is, and for a
negative register `calculate_aqi` returns the fallback `500`. -/
theorem sensor_task_concentration_signs (r : raw_values)
    (hnox : -32768 ≤ r.nox_idx ∧ r.nox_idx ≤ 32767) :
    F32.le (F32.lit 0 1) (convert r).pm2_5 = true ∧
    F32.le (F32.lit 0 1) (convert r).pm10 = true ∧
    F32.le (F32.lit 0 1) (convert r).nox = decide (0 ≤ r.nox_idx) ∧
    (r.nox_idx < 0 → calculate_aqi (convert r).nox nox_breakpoints = 500) := by
  refine ⟨div_ten_nonneg (Int.ofNat_nonneg _), div_ten_nonneg (Int.ofNat_nonneg _), ?_, ?_⟩
  · by_cases h : 0 ≤ r.nox_idx
    · rw [decide_eq_true h]
      exact div_ten_nonneg h
    · rw [decide_eq_false h]
      obtain ⟨n, hn, he⟩ := div_ten_neg hnox.1 (by omega)
      show F32.le (F32.lit 0 1) (F32.div (F32.ofInt r.nox_idx) (F32.lit 10 1)) = false
      rw [he, lit_zero]
      simp only [F32.le, decide_eq_false_iff_not]
      omega
  · intro h
    obtain ⟨n, hn, he⟩ := div_ten_neg hnox.1 h
    show calculate_aqi (F32.div (F32.ofInt r.nox_idx) (F32.lit 10 1)) nox_breakpoints = 500
    rw [he]
    exact calculate_aqi_negative nox_seg_ok hn

/-- Witness for `sensor_task_concentration_signs`: registers with `nox_idx = -300`. -/
theorem sensor_task_concentration_signs_witness :
    (-32768 ≤ mixed_raw.nox_idx ∧ mixed_raw.nox_idx ≤ 32767) ∧
    F32.le (F32.lit 0 1) (convert mixed_raw).pm2_5 = true ∧
    F32.le (F32.lit 0 1) (convert mixed_raw).pm10 = true ∧
    F32.le (F32.lit 0 1) (convert mixed_raw).nox = false ∧
    calculate_aqi (convert mixed_raw).nox nox_breakpoints = 500 :=
  have h := sensor_task_concentration_signs mixed_raw ⟨by decide, by decide⟩
  ⟨⟨by decide, by decide⟩, h.1, h.2.1, h.2.2.1, h.2.2.2 (by decide)⟩

/-! ## Main results: failed cycles and the query handler -/

/-- C9.  An iteration in which the data-ready check fails, the data is reported not ready,
or the read of the values fails leaves the shared record exactly as it was. -/
theorem sensor_task_cycle_failed_preserves (e : cycle_env) (g : sensor_data_t)
    (h : e.ready_ret ≠ 0 ∨ (e.ready_ret = 0 ∧ e.ready = false) ∨
      (e.ready_ret = 0 ∧ e.ready = true ∧ e.read_ret ≠ 0)) :
    sensor_task_cycle e g = g := by
  unfold sensor_task_cycle
  rcases h with h | ⟨h1, h2⟩ | ⟨h1, h2, h3⟩
  · rw [if_pos h]
  · simp [h1, h2]
  · simp [h1, h2, h3]

/-- Witness for `sensor_task_cycle_failed_preserves`: a failed read of the values after a
successful data-ready check keeps a previously published record. -/
theorem sensor_task_cycle_failed_preserves_witness :
    ((0 : Int) = 0 ∧ true = true ∧ (-1 : Int) ≠ 0) ∧
    sensor_task_cycle
      { ready_ret := 0, ready := true, read_ret := -1, raw := negative_nox, lock := true,
        now := 1704067260 } published_before = published_before :=
  ⟨⟨rfl, rfl, by decide⟩,
    sensor_task_cycle_failed_preserves
      { ready_ret := 0, ready := true, read_ret := -1, raw := negative_nox, lock := true,
        now := 1704067260 } published_before (Or.inr (Or.inr ⟨rfl, rfl, by decide⟩))⟩

/-- C10, counterexample.  A request on the initial record with the mutex obtained is
answered with `503 Service Unavailable` and the free-text body `"error":"Sensor not ready"`
in braces; the text `SENSOR_NOT_READY` occurs nowhere in the response. -/
theorem aqi_get_handler_no_error_code_counterexample :
    (aqi_get_handler true 1704067260 g_sensor_data).1.status = "503 Service Unavailable" ∧
    (aqi_get_handler true 1704067260 g_sensor_data).1.body =
      http_body.text "\x7b\"error\":\"Sensor not ready\"\x7d" ∧
    body_mentions "SENSOR_NOT_READY" (aqi_get_handler true 1704067260 g_sensor_data).1.body =
      false ∧
    occurs_in "SENSOR_NOT_READY".data
      (aqi_get_handler true 1704067260 g_sensor_data).1.status.data = false := by decide

/-- C10, as amended.  When the handler obtains the mutex and the copied record has
`valid = false`, it answers `503 Service Unavailable` with the free-text body
`"error":"Sensor not ready"` in braces (different from the body sent when the mutex is not
obtained) and no sensor payload.  No response of the handler carries the text
`SENSOR_NOT_READY`.  The shared record is never changed by the handler, and a `200 OK`
status or a sensor payload is produced only when the mutex was obtained and the copied
record has `valid = true`. -/
theorem aqi_get_handler_not_ready (lock : Bool) (now : Int) (g : sensor_data_t) :
    (lock = true → g.valid = false →
      (aqi_get_handler lock now g).1.status = "503 Service Unavailable" ∧
      (aqi_get_handler lock now g).1.body =
        http_body.text "\x7b\"error\":\"Sensor not ready\"\x7d" ∧
      (aqi_get_handler lock now g).1.body ≠
        (aqi_get_handler false now g).1.body ∧
      (∀ p, (aqi_get_handler lock now g).1.body ≠ http_body.json p)) ∧
    body_mentions "SENSOR_NOT_READY" (aqi_get_handler lock now g).1.body = false ∧
    (aqi_get_handler lock now g).2 = g ∧
    (((aqi_get_handler lock now g).1.status = "200 OK" ∨
        ∃ p, (aqi_get_handler lock now g).1.body = http_body.json p) →
      lock = true ∧ g.valid = true) := by
  refine ⟨?_, ?_, ?_, ?_⟩
  · intro hl hv
    subst hl
    simp [aqi_get_handler, hv]
  · cases lock
    · have e : (aqi_get_handler false now g).1.body =
          http_body.text "\x7b\"error\":\"Sensor data unavailable\"\x7d" := rfl
      rw [e]
      decide
    · cases hv : g.valid
      · have e : (aqi_get_handler true now g).1.body =
            http_body.text "\x7b\"error\":\"Sensor not ready\"\x7d" := by
          simp [aqi_get_handler, hv]
        rw [e]
        decide
      · have e : (aqi_get_handler true now g).1.body =
            http_body.json
              { device_id := DEVICE_ID, timestamp := now,
                pm1_0 := g.pm1_0, pm2_5 := g.pm2_5, pm4_0 := g.pm4_0, pm10 := g.pm10,
                voc_index := g.voc_index, nox_index := g.nox_index,
                temperature := g.temperature, humidity := g.humidity,
                aqi := g.aqi, aqi_category := get_aqi_category g.aqi } := by
          simp [aqi_get_handler, hv]
        rw [e]
        show (occurs_in "SENSOR_NOT_READY".data DEVICE_ID.data ||
          occurs_in "SENSOR_NOT_READY".data (get_aqi_category g.aqi).data) = false
        have hd : occurs_in "SENSOR_NOT_READY".data DEVICE_ID.data = false := by decide
        rw [hd, Bool.false_or]
        unfold get_aqi_category
        split_ifs <;> decide
  · cases lock <;> cases hv : g.valid <;> simp [aqi_get_handler, hv]
  · cases lock <;> cases hv : g.valid <;> simp [aqi_get_handler, hv]

/-- Witness for `aqi_get_handler_not_ready`: a request before any successful cycle, on the
initial record. -/
theorem aqi_get_handler_not_ready_witness :
    (true = true ∧ g_sensor_data.valid = false) ∧
    (aqi_get_handler true 1704067200 g_sensor_data).1.status = "503 Service Unavailable" ∧
    (aqi_get_handler true 1704067200 g_sensor_data).1.body =
      http_body.text "\x7b\"error\":\"Sensor not ready\"\x7d" ∧
    body_mentions "SENSOR_NOT_READY" (aqi_get_handler true 1704067200 g_sensor_data).1.body =
      false ∧
    (aqi_get_handler true 1704067200 g_sensor_data).2 = g_sensor_data :=
  have h := aqi_get_handler_not_ready true 1704067200 g_sensor_data
  ⟨⟨rfl, rfl⟩, (h.1 rfl rfl).1, (h.1 rfl rfl).2.1, h.2.1, h.2.2.1⟩

end AqiServer
